import Mathlib

/-!
Verification development for the `plumming` module of rust-git
(src/src/main.rs): a minimal content-addressable object store in the style
of git's object database.  Byte sequences (Rust `Vec<u8>`, `&[u8]`, and the
UTF-8 bytes of Rust `String`s) are modelled as `List Nat` with each element
a byte value; machine arithmetic is `Nat` with explicit `% 2 ^ 32` where the
SHA-1 compression function wraps.  Fallible Rust code is modelled with
explicit result types; a Rust panic (out-of-range slice, `unwrap` on an
error) is a distinguished `panic` outcome, never an omitted case.
-/

set_option maxRecDepth 100000

namespace RustGit

/-- Bytes of an ASCII string literal (Rust `str::as_bytes`).  Every literal
this development applies it to is pure ASCII, where UTF-8 bytes coincide
with code points. -/
def ascii (s : String) : List Nat := s.data.map Char.toNat

/-! ### SHA-1 (the `sha1` crate used by `Blob::hash`)

The `sha1` crate is an external dependency; the function below is the
standard SHA-1 algorithm (FIPS 180-4) it implements, written with `Nat`
arithmetic truncated at 32 bits.  Incremental `update` calls on the hasher
are equivalent to hashing the concatenation of the inputs, so
`Blob::hash(header, content)` is embedded as `sha1 (header ++ content)`. -/

/-- Truncate to a 32-bit word. -/
def u32 (n : Nat) : Nat := n % 4294967296

/-- Left rotation of a 32-bit word by `k` bits. -/
def rotl (k n : Nat) : Nat :=
  u32 (Nat.lor (Nat.shiftLeft n k) (Nat.shiftRight n (32 - k)))

/-- Big-endian 4-byte encoding of a 32-bit word. -/
def be32 (n : Nat) : List Nat :=
  [n / 16777216 % 256, n / 65536 % 256, n / 256 % 256, n % 256]

/-- Big-endian 8-byte encoding of a 64-bit length field. -/
def be64 (n : Nat) : List Nat :=
  [n / 72057594037927936 % 256, n / 281474976710656 % 256,
   n / 1099511627776 % 256, n / 4294967296 % 256,
   n / 16777216 % 256, n / 65536 % 256, n / 256 % 256, n % 256]

/-- SHA-1 message padding: a `0x80` byte, zero bytes to 56 mod 64, then the
bit length as a big-endian 64-bit integer. -/
def sha1pad (msg : List Nat) : List Nat :=
  msg ++ 128 :: List.replicate ((64 - (msg.length + 9) % 64) % 64) 0
    ++ be64 (8 * msg.length)

/-- Group bytes four at a time into big-endian 32-bit words. -/
def toWords : List Nat → List Nat
  | a :: b :: c :: d :: rest =>
      (a * 16777216 + b * 65536 + c * 256 + d) :: toWords rest
  | _ => []

/-- Message-schedule extension: append `fuel` further words, each the
1-bit left rotation of the xor of the words 3, 8, 14 and 16 back. -/
def extendWords : Nat → List Nat → List Nat
  | 0, ws => ws
  | fuel + 1, ws =>
      let n := ws.length
      extendWords fuel (ws ++ [rotl 1 (Nat.xor
        (Nat.xor (ws.getD (n - 3) 0) (ws.getD (n - 8) 0))
        (Nat.xor (ws.getD (n - 14) 0) (ws.getD (n - 16) 0)))])

/-- Round function: choice, parity, majority, parity by round quarter. -/
def sha1f (i b c d : Nat) : Nat :=
  if i < 20 then Nat.lor (Nat.land b c) (Nat.land (Nat.xor b 4294967295) d)
  else if i < 40 then Nat.xor b (Nat.xor c d)
  else if i < 60 then
    Nat.lor (Nat.lor (Nat.land b c) (Nat.land b d)) (Nat.land c d)
  else Nat.xor b (Nat.xor c d)

/-- Round constants by round quarter. -/
def sha1k (i : Nat) : Nat :=
  if i < 20 then 1518500249
  else if i < 40 then 1859775393
  else if i < 60 then 2400959708
  else 3395469782

/-- The 80 compression rounds over the extended schedule. -/
def sha1rounds : Nat → List Nat → Nat × Nat × Nat × Nat × Nat →
    Nat × Nat × Nat × Nat × Nat
  | _, [], st => st
  | i, w :: ws, (a, b, c, d, e) =>
      sha1rounds (i + 1) ws
        (u32 (rotl 5 a + sha1f i b c d + e + sha1k i + w), a, rotl 30 b, c, d)

/-- Process one 64-byte block, adding the round output to the chaining
state modulo 2 ^ 32. -/
def sha1block (st : Nat × Nat × Nat × Nat × Nat) (block : List Nat) :
    Nat × Nat × Nat × Nat × Nat :=
  match st with
  | (h0, h1, h2, h3, h4) =>
    match sha1rounds 0 (extendWords 64 (toWords block)) st with
    | (a, b, c, d, e) =>
      (u32 (h0 + a), u32 (h1 + b), u32 (h2 + c), u32 (h3 + d), u32 (h4 + e))

/-- Split a byte list into 64-byte chunks; `fuel` bounds the recursion and
is always supplied as the length of the list. -/
def chunks64Aux : Nat → List Nat → List (List Nat)
  | _, [] => []
  | 0, _ => []
  | fuel + 1, l => l.take 64 :: chunks64Aux fuel (l.drop 64)

/-- Split a byte list into 64-byte chunks. -/
def chunks64 (l : List Nat) : List (List Nat) := chunks64Aux l.length l

/-- SHA-1 of a byte sequence: 20 digest bytes. -/
def sha1 (msg : List Nat) : List Nat :=
  match (chunks64 (sha1pad msg)).foldl sha1block
      (1732584193, 4023233417, 2562383102, 271733878, 3285377520) with
  | (h0, h1, h2, h3, h4) => be32 h0 ++ be32 h1 ++ be32 h2 ++ be32 h3 ++ be32 h4

/-! ### Hex encoding (`Blob::string_hash`) and decoding (`Blob::decode_hex`) -/

/-- Hex digit byte for a value below 16: `0`-`9`, then lowercase `a`-`f`. -/
def hexDigitByte (d : Nat) : Nat := if d < 10 then 48 + d else 87 + d

/-- Bytes of `format!("{:02x}", b)` for a byte value `b`: exactly two
lowercase hex digits, a single digit padded with a leading zero. -/
def byteHex (b : Nat) : List Nat :=
  [hexDigitByte (b / 16 % 16), hexDigitByte (b % 16)]

/-- Hex digit value of one byte under `u8::from_str_radix(_, 16)`:
`0`-`9`, `a`-`f`, and also uppercase `A`-`F`. -/
def hexVal (c : Nat) : Option Nat :=
  if 48 ≤ c ∧ c ≤ 57 then some (c - 48)
  else if 97 ≤ c ∧ c ≤ 102 then some (c - 87)
  else if 65 ≤ c ∧ c ≤ 70 then some (c - 55)
  else none

/-- Result of `u8::from_str_radix` on a two-character chunk: an optional
leading sign — `+` is accepted, `-` only when the value is zero, since the
target type is unsigned — followed by hex digits. -/
def fromStrRadix2 (c1 c2 : Nat) : Option Nat :=
  if c1 = 43 then hexVal c2
  else if c1 = 45 then
    match hexVal c2 with
    | some 0 => some 0
    | _ => none
  else
    match hexVal c1, hexVal c2 with
    | some a, some b => some (16 * a + b)
    | _, _ => none

/-- Outcome of `Blob::decode_hex`: a byte vector, a typed `ParseIntError`,
or a Rust panic. -/
inductive HexResult
  | ok : List Nat → HexResult
  | err : HexResult
  | panic : HexResult
  deriving DecidableEq

/-- `Blob::decode_hex`: step through the string two characters at a time,
parse each chunk with `u8::from_str_radix(_, 16)` and collect the results.
`collect` over `Result`s stops at the first parse error; on an odd-length
string the final one-character chunk asks for the out-of-range slice
`s[len-1..len+1]`, a panic.  No length check of any kind is performed. -/
def Blob.decode_hex : List Nat → HexResult
  | [] => .ok []
  | [_] => .panic
  | c1 :: c2 :: rest =>
    match fromStrRadix2 c1 c2 with
    | none => .err
    | some b =>
      match Blob.decode_hex rest with
      | .ok bs => .ok (b :: bs)
      | r => r

/-- `Blob::string_hash`: fold over the digest bytes, appending
`format!("{:02x}", element)` for each one. -/
def Blob.string_hash (hash : List Nat) : List Nat :=
  hash.foldl (fun acc element => acc ++ byteHex element) []

/-! ### Decimal formatting (`format!("{}", n)` on a `usize`) -/

/-- Decimal digit bytes of `n`, most significant first; `fuel` bounds the
recursion and every use supplies `n + 1`, which the correctness lemma shows
is always enough. -/
def decimalAux : Nat → Nat → List Nat
  | 0, _ => []
  | fuel + 1, n =>
    if n < 10 then [48 + n]
    else decimalAux fuel (n / 10) ++ [48 + n % 10]

/-- Decimal digit bytes of `n` as Rust `format!("{}", n)` renders them. -/
def decimal (n : Nat) : List Nat := decimalAux (n + 1) n

/-- Numeric value of a big-endian string of decimal digit bytes. -/
def decValue (ds : List Nat) : Nat := ds.foldl (fun a d => 10 * a + (d - 48)) 0

/-! ### The compression codec

Modelled from the spec: the codec itself (`flate2`'s `ZlibEncoder` and
`ZlibDecoder`) is an external crate, not part of this repository's source —
only its call sites are.  Spec §4.3 fixes its contract: `compress` and
`decompress` form an exact round-trip, the compression level affects only
stored size, and decompression of non-conformant input fails with a decode
error.  The model is a stream carrying the fixed zlib method byte, the
level byte, and the payload verbatim. -/

/-- Modelled from the spec: Zlib compression at a given level (§4.3). -/
def zlibCompress (level : Nat) (x : List Nat) : List Nat :=
  120 :: level % 256 :: x

/-- Modelled from the spec: Zlib decompression, the inverse of
`zlibCompress`; a stream without the method byte is a decode error
(`none`), surfaced through Rust's `Read` as an I/O error. -/
def zlibDecompress : List Nat → Option (List Nat)
  | 120 :: _ :: rest => some rest
  | _ => none

/-- `Compression::fast()`: deflate level 1. -/
def compressionFast : Nat := 1

/-! ### `Blob` -/

/-- The `Blob` struct: content bytes, frame header bytes, the 20-byte raw
digest, and its 40-character hex rendering (a Rust `String`, modelled as
its UTF-8 bytes). -/
structure Blob where
  content : List Nat
  header : List Nat
  hash : List Nat
  hash_string : List Nat
  deriving DecidableEq

/-- `Blob::header`: `format!("blob {}\0", content.len())` as bytes.  Named
`headerFor` because `Blob.header` is the field projection. -/
def Blob.headerFor (content : List Nat) : List Nat :=
  ascii "blob " ++ decimal content.length ++ [0]

/-- `Blob::hash`: SHA-1 over the header update followed by the content
update, i.e. over `header ++ content`.  Named `hashOf` because `Blob.hash`
is the field projection. -/
def Blob.hashOf (header content : List Nat) : List Nat :=
  sha1 (header ++ content)

/-- `Blob::from_vec`: frame the content, hash header-then-content, render
the digest in hex. -/
def Blob.from_vec (content : List Nat) : Blob :=
  { content := content
    header := Blob.headerFor content
    hash := Blob.hashOf (Blob.headerFor content) content
    hash_string := Blob.string_hash (Blob.hashOf (Blob.headerFor content) content) }

/-- `Blob::compress`: Zlib-encode the header write followed by the content
write at the fast level, i.e. the concatenation. -/
def Blob.compressed (b : Blob) : List Nat :=
  zlibCompress compressionFast (b.header ++ b.content)

/-- `Blob::dir`: the first two hex characters of the digest string
(`split_at(2).0`). -/
def Blob.dir (b : Blob) : List Nat := b.hash_string.take 2

/-- `Blob::filename`: the remaining 38 hex characters
(`split_at(2).1`). -/
def Blob.filename (b : Blob) : List Nat := b.hash_string.drop 2

/-! ### The object store -/

/-- The store-relevant filesystem state: full paths (UTF-8 bytes) mapped to
file contents. -/
abbrev Store := List (List Nat × List Nat)

/-- `GIT_OBJECTS`, the store root. -/
def GIT_OBJECTS : List Nat := ascii ".git/objects"

/-- Read a path from the filesystem state. -/
def getFile : Store → List Nat → Option (List Nat)
  | [], _ => none
  | (p, v) :: rest, q => if p = q then some v else getFile rest q

/-- `File::create` followed by `write_all`: bind the path to the bytes,
truncating an existing file in place. -/
def setFile : Store → List Nat → List Nat → Store
  | [], p, v => [(p, v)]
  | (q, w) :: rest, p, v =>
      if q = p then (p, v) :: rest else (q, w) :: setFile rest p v

/-- A filesystem call the write path issues, recorded for the frame-effect
claims: recursive directory creation, `File::create` (which truncates an
existing file), and `write_all`. -/
inductive FsEvent
  | createDirAll : List Nat → FsEvent
  | createFile : List Nat → FsEvent
  | writeAll : List Nat → List Nat → FsEvent
  deriving DecidableEq

/-- Result of the write path: the new filesystem state and the calls
issued. -/
structure WriteOut where
  fs : Store
  events : List FsEvent
  deriving DecidableEq

/-- `hash::write_to_database`: derive the fan-out directory from the first
two hex characters, `create_dir_all` it, then `File::create` the object
file — which creates or truncates it whether or not it already exists —
and `write_all` the compressed blob.  In this single-process model the
filesystem calls succeed; the event list records them. -/
def write_to_database (fs : Store) (b : Blob) : WriteOut :=
  let git_dir := GIT_OBJECTS ++ [47] ++ b.dir
  let git_blob_filename := git_dir ++ [47] ++ b.filename
  { fs := setFile fs git_blob_filename b.compressed
    events := [.createDirAll git_dir, .createFile git_blob_filename,
               .writeAll git_blob_filename b.compressed] }

/-- Result of `put`: new filesystem state, the digest hex string the caller
receives, and the filesystem calls issued. -/
structure PutOut where
  fs : Store
  digest : List Nat
  events : List FsEvent
  deriving DecidableEq

/-- The store's write path, `hash::write_and_print_hash` without the
console output: build the blob from the raw content bytes with
`Blob::from_vec`, persist it, return the hex digest. -/
def put (fs : Store) (content : List Nat) : PutOut :=
  let blob := Blob.from_vec content
  { fs := (write_to_database fs blob).fs
    digest := blob.hash_string
    events := (write_to_database fs blob).events }

/-- Outcome of `Blob::from_sha`: a blob, a propagated `std::io::Error`
(missing file or failed decompression), or a Rust panic (the `unwrap`s on
`decode_hex` and on the `try_into` to `[u8; 20]`). -/
inductive GetResult
  | ok : Blob → GetResult
  | ioErr : GetResult
  | panic : GetResult
  deriving DecidableEq

/-- Index just past the first ASCII space, or 0 when no space occurs: the
`v.iter().position(|&x| x == b' ')` computation of `Blob::from_sha`.  The
same space-only split drives `cat::sha_obect_to_string`. -/
def headerSplit (v : List Nat) : Nat :=
  match List.findIdx? (fun x => x == 32) v with
  | some index => index + 1
  | none => 0

/-- `Blob::from_sha`: split the hex digest at byte 2 for the fan-out path,
read the file (a missing path is an I/O error), `unwrap` the hex decode and
the conversion to `[u8; 20]` (both panic on failure), inflate, then split
the payload at the byte just past the first ASCII space: those bytes become
`header` and all the rest `content`.  No NUL is ever searched for, and a
payload without a space yields an empty header and the whole payload as
content. -/
def Blob.from_sha (fs : Store) (sha : List Nat) : GetResult :=
  let dir_name := sha.take 2
  let file_name := sha.drop 2
  let full_path := GIT_OBJECTS ++ [47] ++ dir_name ++ [47] ++ file_name
  match getFile fs full_path with
  | none => .ioErr
  | some file_content =>
    match Blob.decode_hex sha with
    | .ok byte_sha =>
      if byte_sha.length = 20 then
        match zlibDecompress file_content with
        | none => .ioErr
        | some v =>
          .ok { content := v.drop (headerSplit v)
                header := v.take (headerSplit v)
                hash := byte_sha
                hash_string := sha }
      else .panic
    | _ => .panic

/-! ### The tree decoder -/

/-- Object kinds distinguished by `TreeEntry`. -/
inductive EntryType
  | Blob
  | Tree
  deriving DecidableEq

/-- A parsed directory-listing entry: mode string, entry kind, 20 raw
digest bytes, and name (strings modelled as UTF-8 bytes). -/
structure TreeEntry where
  mode : List Nat
  entry_type : EntryType
  sha : List Nat
  name : List Nat
  deriving DecidableEq

/-- Outcome of `Tree::try_pars`: one entry, the typed `NotATreeObject`
error, or a Rust panic from an out-of-range slice. -/
inductive ParsResult
  | ok : TreeEntry → ParsResult
  | err : ParsResult
  | panic : ParsResult
  deriving DecidableEq

/-- Rust range slice `v[a..b]`: defined when `a ≤ b ≤ v.len()`, a panic
(`none`) otherwise. -/
def slice (v : List Nat) (a b : Nat) : Option (List Nat) :=
  if a ≤ b ∧ b ≤ v.length then some ((v.drop a).take (b - a)) else none

/-- `Tree::try_pars`: slice the first four header bytes (panicking when the
header is shorter), reject a header not starting `"tree"` with the typed
`NotATreeObject` error, slice `content[0..40]` (panicking whenever fewer
than 40 content bytes exist — the debug print the source performs), then
build a single entry from fixed offsets: mode is `content[0..6]`, the entry
type compares `content[8..12]` against `"blob"`, the digest is hard-coded
to twenty zero bytes and the name to the empty string. -/
def Tree.try_pars (blob : Blob) : ParsResult :=
  match slice blob.header 0 4 with
  | none => .panic
  | some h4 =>
    if h4 ≠ ascii "tree" then .err
    else
      match slice blob.content 0 40 with
      | none => .panic
      | some _ =>
        match slice blob.content 0 6, slice blob.content 8 12 with
        | some m, some k =>
          .ok { mode := m
                entry_type := if k = ascii "blob" then .Blob else .Tree
                sha := List.replicate 20 0
                name := [] }
        | _, _ => .panic

/-! ## Claims -/

/-- C1: storing the literal 16-byte content `"what is up, doc?"` as a data
blob yields the hex digest string `bd9dbf5aae1a3862dd1526723246b20206e5fc37`
— the composition of header construction, SHA-1 over `header ++ content`,
and lowercase hex encoding produces exactly that 40-character string. -/
theorem c1_doc_blob_digest :
    (Blob.from_vec (ascii "what is up, doc?")).hash_string
      = ascii "bd9dbf5aae1a3862dd1526723246b20206e5fc37"
    ∧ (Blob.from_vec (ascii "what is up, doc?")).hash_string.length = 40 := by
  decide

/-- C2 fails on the code: a `put` of content `"hi"` followed by `get`
(`Blob::from_sha`) on the returned digest yields content `"2\0hi"`, not
`"hi"` — the decimal length field and the NUL separator of the frame
header remain on the front of the content, because `from_sha` strips only
up to and including the first ASCII space. -/
theorem c2_put_get_keeps_length_field :
    Blob.from_sha (put [] (ascii "hi")).fs
        (ascii "32f95c0d1244a78b2be1bab8de17906fabb2c4a8")
      = .ok { content := ascii "2\x00hi"
              header := ascii "blob "
              hash := [50, 249, 92, 13, 18, 68, 167, 139, 43, 225,
                       186, 184, 222, 23, 144, 111, 171, 178, 196, 168]
              hash_string := ascii "32f95c0d1244a78b2be1bab8de17906fabb2c4a8" }
    ∧ ascii "2\x00hi" ≠ ascii "hi" := by
  decide

/-- C3 fails on the code: the unframing split never consults the NUL that
ends the length field — content starts at the byte after the first space,
as the stored `"blob 2\0hi"` payload shows — and when no space is present
at all `from_sha` succeeds with an empty header and the whole payload as
content instead of returning a failure. -/
theorem c3_unframe_skips_delimiter_checks :
    headerSplit (ascii "treeXYZ") = 0
    ∧ Blob.from_sha
        [(ascii ".git/objects/00/00000000000000000000000000000000000000",
          zlibCompress compressionFast (ascii "treeXYZ"))]
        (ascii "0000000000000000000000000000000000000000")
      = .ok { content := ascii "treeXYZ"
              header := []
              hash := List.replicate 20 0
              hash_string := ascii "0000000000000000000000000000000000000000" }
    ∧ headerSplit (ascii "blob 2\x00hi") = 5 := by
  decide

/-- C4 fails on the code: on a directory-listing object with an empty
payload `Tree::try_pars` panics on the out-of-range slice `content[0..40]`
instead of returning an empty entry sequence, and on a payload truncated
mid-entry (`"100644 ab"`, nine bytes) it panics the same way instead of
returning a malformed-payload error. -/
theorem c4_tree_decoder_panics_on_short_payloads :
    Tree.try_pars { content := []
                    header := ascii "tree "
                    hash := List.replicate 20 0
                    hash_string := [] } = .panic
    ∧ Tree.try_pars { content := ascii "100644 ab"
                      header := ascii "tree "
                      hash := List.replicate 20 0
                      hash_string := [] } = .panic := by
  decide

/-- C5 fails on the code: on a well-formed two-entry payload — a data-blob
entry `"100644 a\0"` with digest bytes `0xAA` and a nested-directory entry
`"40000 b\0"` with digest bytes `0xBB` — `Tree::try_pars` returns a single
entry whose kind is wrongly `Tree` (it compares `content[8..12]`, which
already sits inside the first digest, against `"blob"`), whose digest is
the hard-coded twenty zero bytes, and whose name is empty, instead of the
two entries with the encoded fields. -/
theorem c5_tree_decoder_single_wrong_entry :
    Tree.try_pars { content := ascii "100644 a\x00" ++ List.replicate 20 170
                      ++ ascii "40000 b\x00" ++ List.replicate 20 187
                    header := ascii "tree "
                    hash := List.replicate 20 0
                    hash_string := [] }
      = .ok { mode := ascii "100644"
              entry_type := .Tree
              sha := List.replicate 20 0
              name := [] } := by
  decide

/-- Correctness of the decimal printer: with fuel exceeding the number, the
digit string is nonempty, consists of ASCII digit bytes, evaluates back to
the number, and starts with the zero digit only for zero itself. -/
theorem decimalAux_spec (fuel : Nat) : ∀ n, n < fuel →
    decimalAux fuel n ≠ []
    ∧ (∀ d ∈ decimalAux fuel n, 48 ≤ d ∧ d ≤ 57)
    ∧ decValue (decimalAux fuel n) = n
    ∧ ((decimalAux fuel n).head? = some 48 → n = 0) := by
  induction fuel with
  | zero => omega
  | succ fuel ih =>
    intro n hn
    by_cases h10 : n < 10
    · have heq : decimalAux (fuel + 1) n = [48 + n] := by
        simp [decimalAux, h10]
      rw [heq]
      refine ⟨by simp, ?_, ?_, ?_⟩
      · intro d hd
        simp at hd
        omega
      · simp [decValue]
      · intro hh
        simp at hh
        omega
    · have hdiv : n / 10 < fuel := by omega
      obtain ⟨hne, hdig, hval, hhead⟩ := ih (n / 10) hdiv
      have heq : decimalAux (fuel + 1) n
          = decimalAux fuel (n / 10) ++ [48 + n % 10] := by
        simp [decimalAux, h10]
      rw [heq]
      refine ⟨by simp, ?_, ?_, ?_⟩
      · intro d hd
        rcases List.mem_append.mp hd with h | h
        · exact hdig d h
        · simp at h
          omega
      · have hstep : decValue (decimalAux fuel (n / 10) ++ [48 + n % 10])
            = 10 * decValue (decimalAux fuel (n / 10)) + (48 + n % 10 - 48) := by
          simp [decValue, List.foldl_append]
        rw [hstep, hval]
        omega
      · rcases hds : decimalAux fuel (n / 10) with _ | ⟨a, t⟩
        · exact absurd hds hne
        · intro hh
          simp [hds] at hh
          rw [hds] at hhead
          have : n / 10 = 0 := hhead (by simp [hh])
          omega

/-- C6: for every content byte sequence, the frame the code builds is
exactly `"blob " ++ <decimal length> ++ NUL` (+ the content when hashed):
the decimal field is a nonempty string of ASCII digit bytes whose value is
the content byte length, with a leading zero digit only for the empty
content, and the digest is SHA-1 of `header ++ content`, never of the
content alone.  The code frames only the `"blob"` kind (see C10), so the
quantification over kinds instantiates to that one kind. -/
theorem c6_frame_shape (content : List Nat) :
    Blob.headerFor content = ascii "blob " ++ decimal content.length ++ [0]
    ∧ decimal content.length ≠ []
    ∧ (∀ d ∈ decimal content.length, 48 ≤ d ∧ d ≤ 57)
    ∧ decValue (decimal content.length) = content.length
    ∧ ((decimal content.length).head? = some 48 → content.length = 0)
    ∧ (Blob.from_vec content).hash = sha1 (Blob.headerFor content ++ content) := by
  obtain ⟨h1, h2, h3, h4⟩ :=
    decimalAux_spec (content.length + 1) content.length (by omega)
  exact ⟨rfl, h1, h2, h3, h4, rfl⟩

/-- Reading back the path a write bound yields the bytes written. -/
theorem getFile_setFile_self (fs : Store) (p v : List Nat) :
    getFile (setFile fs p v) p = some v := by
  induction fs with
  | nil => simp [setFile, getFile]
  | cons hd tl ih =>
    obtain ⟨r, w⟩ := hd
    by_cases hrp : r = p
    · subst hrp
      simp [setFile, getFile]
    · simp [setFile, getFile, hrp, ih]

/-- A write leaves every other path unchanged. -/
theorem getFile_setFile_ne (fs : Store) (p q v : List Nat) (hq : p ≠ q) :
    getFile (setFile fs p v) q = getFile fs q := by
  induction fs with
  | nil => simp [setFile, getFile, hq]
  | cons hd tl ih =>
    obtain ⟨r, w⟩ := hd
    by_cases hrp : r = p
    · subst hrp
      simp [setFile, getFile, hq]
    · simp [setFile, getFile, hrp, ih]

/-- Rebinding a path to the bytes it already holds leaves the filesystem
state identical. -/
theorem setFile_setFile (fs : Store) (p v : List Nat) :
    setFile (setFile fs p v) p v = setFile fs p v := by
  induction fs with
  | nil => simp [setFile]
  | cons hd tl ih =>
    obtain ⟨r, w⟩ := hd
    by_cases hrp : r = p
    · subst hrp
      simp [setFile]
    · simp [setFile, hrp, ih]

/-- C7 fails as stated: after a first `put` of `"hi"` the object file
exists, yet the second identical `put` still issues `File::create` — which
truncates the existing file — and `write_all` on that existing path; the
code never checks for pre-existence. -/
theorem c7_counterexample :
    (getFile (put [] (ascii "hi")).fs
        (ascii ".git/objects/32/f95c0d1244a78b2be1bab8de17906fabb2c4a8")).isSome
      = true
    ∧ FsEvent.createFile
        (ascii ".git/objects/32/f95c0d1244a78b2be1bab8de17906fabb2c4a8")
        ∈ (put (put [] (ascii "hi")).fs (ascii "hi")).events := by
  decide

/-- C7 amended: a second `put` of identical content yields the same digest,
succeeds, and leaves the stored mapping unchanged, but instead of skipping
the write when the object file already exists it unconditionally re-runs
`File::create` (truncating the existing file) and rewrites it with the same
compressed bytes. -/
theorem c7_put_idempotent_but_rewrites (fs : Store) (content : List Nat) :
    (put (put fs content).fs content).digest = (put fs content).digest
    ∧ (put (put fs content).fs content).fs = (put fs content).fs
    ∧ FsEvent.createFile
        (GIT_OBJECTS ++ [47] ++ (Blob.from_vec content).dir ++ [47]
          ++ (Blob.from_vec content).filename)
        ∈ (put (put fs content).fs content).events := by
  refine ⟨rfl, ?_, ?_⟩
  · simp [put, write_to_database, setFile_setFile]
  · simp [put, write_to_database, List.append_assoc]

/-- C10: every file the write path creates or changes holds the fast-level
compression of a frame whose header is exactly
`"blob " ++ <decimal content length> ++ NUL`; the framed bytes start with
`"blob "` and never with `"tree"`, so `put` can never persist a
tree-framed object. -/
theorem c10_put_writes_only_blob_frames (fs : Store) (content p v : List Nat)
    (h : getFile (put fs content).fs p = some v) :
    getFile fs p = some v
    ∨ (v = zlibCompress compressionFast (Blob.headerFor content ++ content)
       ∧ zlibDecompress v
           = some (ascii "blob " ++ (decimal content.length ++ ([0] ++ content)))
       ∧ (Blob.headerFor content ++ content).take 5 = ascii "blob "
       ∧ (Blob.headerFor content ++ content).take 4 ≠ ascii "tree") := by
  simp only [put, write_to_database] at h
  by_cases hp : GIT_OBJECTS ++ [47] ++ (Blob.from_vec content).dir ++ [47]
      ++ (Blob.from_vec content).filename = p
  · right
    rw [← hp, getFile_setFile_self] at h
    have hv : v = (Blob.from_vec content).compressed :=
      (Option.some_inj.mp h).symm
    subst hv
    refine ⟨rfl, ?_, rfl, ?_⟩
    · show zlibDecompress
        (zlibCompress compressionFast (Blob.headerFor content ++ content))
          = some (ascii "blob " ++ (decimal content.length ++ ([0] ++ content)))
      have hz : zlibDecompress
          (zlibCompress compressionFast (Blob.headerFor content ++ content))
          = some (Blob.headerFor content ++ content) := rfl
      rw [hz]
      simp [Blob.headerFor, List.append_assoc]
    · have ht4 : (Blob.headerFor content ++ content).take 4
          = [98, 108, 111, 98] := rfl
      rw [ht4]
      decide
  · left
    rw [getFile_setFile_ne _ _ _ _ hp] at h
    exact h

/-- C10 witness: putting the two-byte content `"hi"` into the empty store
binds its object path, and the theorem then certifies the stored bytes
carry the `"blob 2\0"` frame. -/
theorem c10_witness :
    getFile [] (ascii ".git/objects/32/f95c0d1244a78b2be1bab8de17906fabb2c4a8")
        = some ((Blob.from_vec (ascii "hi")).compressed)
    ∨ ((Blob.from_vec (ascii "hi")).compressed
          = zlibCompress compressionFast
              (Blob.headerFor (ascii "hi") ++ ascii "hi")
       ∧ zlibDecompress ((Blob.from_vec (ascii "hi")).compressed)
           = some (ascii "blob "
               ++ (decimal (ascii "hi").length ++ ([0] ++ ascii "hi")))
       ∧ (Blob.headerFor (ascii "hi") ++ ascii "hi").take 5 = ascii "blob "
       ∧ (Blob.headerFor (ascii "hi") ++ ascii "hi").take 4 ≠ ascii "tree") :=
  c10_put_writes_only_blob_frames [] (ascii "hi")
    (ascii ".git/objects/32/f95c0d1244a78b2be1bab8de17906fabb2c4a8")
    ((Blob.from_vec (ascii "hi")).compressed)
    (by decide)

/-- Hex digit bytes parse back to their value. -/
theorem hexVal_hexDigitByte (d : Nat) (hd : d < 16) :
    hexVal (hexDigitByte d) = some d := by
  unfold hexVal hexDigitByte
  by_cases h10 : d < 10
  · rw [if_pos h10, if_pos (by omega : 48 ≤ 48 + d ∧ 48 + d ≤ 57)]
    congr 1
    omega
  · rw [if_neg h10, if_neg (by omega : ¬(48 ≤ 87 + d ∧ 87 + d ≤ 57)),
        if_pos (by omega : 97 ≤ 87 + d ∧ 87 + d ≤ 102)]
    congr 1
    omega

/-- Hex digit bytes lie in the lowercase hex alphabet. -/
theorem hexDigitByte_range (d : Nat) (hd : d < 16) :
    (48 ≤ hexDigitByte d ∧ hexDigitByte d ≤ 57)
    ∨ (97 ≤ hexDigitByte d ∧ hexDigitByte d ≤ 102) := by
  unfold hexDigitByte
  split <;> omega

/-- The two-digit rendering of a byte parses back to the byte. -/
theorem fromStrRadix2_byteHex (b : Nat) (hb : b < 256) :
    fromStrRadix2 (hexDigitByte (b / 16 % 16)) (hexDigitByte (b % 16))
      = some b := by
  have h1 : b / 16 % 16 < 16 := Nat.mod_lt _ (by omega)
  have h2 : b % 16 < 16 := Nat.mod_lt _ (by omega)
  have hs1 : hexVal (hexDigitByte (b / 16 % 16)) = some (b / 16 % 16) :=
    hexVal_hexDigitByte _ h1
  have hs2 : hexVal (hexDigitByte (b % 16)) = some (b % 16) :=
    hexVal_hexDigitByte _ h2
  have hne43 : ¬ hexDigitByte (b / 16 % 16) = 43 := by
    unfold hexDigitByte
    split <;> omega
  have hne45 : ¬ hexDigitByte (b / 16 % 16) = 45 := by
    unfold hexDigitByte
    split <;> omega
  unfold fromStrRadix2
  rw [if_neg hne43, if_neg hne45, hs1, hs2]
  show some (16 * (b / 16 % 16) + b % 16) = some b
  have hlt : b / 16 % 16 = b / 16 := Nat.mod_eq_of_lt (by omega)
  rw [hlt]
  congr 1
  omega

/-- Decoding a byte-pair rendering peels off exactly that byte. -/
theorem decode_hex_byteHex (b : Nat) (hb : b < 256) (rest : List Nat) :
    Blob.decode_hex (byteHex b ++ rest)
      = match Blob.decode_hex rest with
        | .ok bs => .ok (b :: bs)
        | r => r := by
  show Blob.decode_hex
      (hexDigitByte (b / 16 % 16) :: hexDigitByte (b % 16) :: rest) = _
  rw [Blob.decode_hex, fromStrRadix2_byteHex b hb]

/-- Decoding the concatenated two-digit renderings of a byte list recovers
the list. -/
theorem decode_hex_join (d : List Nat) (hd : ∀ b ∈ d, b < 256) :
    Blob.decode_hex ((d.map byteHex).flatten) = .ok d := by
  induction d with
  | nil => rfl
  | cons b t ih =>
    have hb : b < 256 := hd b (List.mem_cons_self b t)
    have ht : ∀ x ∈ t, x < 256 := fun x hx => hd x (List.mem_cons_of_mem _ hx)
    show Blob.decode_hex (byteHex b ++ (t.map byteHex).flatten) = .ok (b :: t)
    rw [decode_hex_byteHex b hb, ih ht]

/-- Each byte contributes two characters. -/
theorem join_byteHex_length (d : List Nat) :
    ((d.map byteHex).flatten).length = 2 * d.length := by
  induction d with
  | nil => rfl
  | cons b t ih =>
    simp [byteHex, ih]
    omega

/-- Every character of the rendering is a decimal digit or a lowercase hex
letter. -/
theorem join_byteHex_chars (d : List Nat) :
    ∀ c ∈ (d.map byteHex).flatten, (48 ≤ c ∧ c ≤ 57) ∨ (97 ≤ c ∧ c ≤ 102) := by
  induction d with
  | nil => simp
  | cons b t ih =>
    intro c hc
    simp only [List.map_cons, List.flatten_cons, List.mem_append] at hc
    rcases hc with hc | hc
    · simp only [byteHex, List.mem_cons, List.not_mem_nil, or_false] at hc
      rcases hc with hc | hc
      · rw [hc]
        exact hexDigitByte_range _ (Nat.mod_lt _ (by omega))
      · rw [hc]
        exact hexDigitByte_range _ (Nat.mod_lt _ (by omega))
    · exact ih c hc

/-- The digest-to-hex fold is concatenation of per-byte renderings. -/
theorem string_hash_foldl (d : List Nat) (acc : List Nat) :
    d.foldl (fun a b => a ++ byteHex b) acc = acc ++ (d.map byteHex).flatten := by
  induction d generalizing acc with
  | nil => simp
  | cons b t ih =>
    simp [List.foldl_cons, ih, List.append_assoc]

/-- A character accepted as a hex digit is not a sign character. -/
theorem hexVal_ne_sign (c : Nat) (h : (hexVal c).isSome) :
    ¬ c = 43 ∧ ¬ c = 45 := by
  unfold hexVal at h
  split_ifs at h with h1 h2 h3
  · omega
  · omega
  · omega
  · simp at h

/-- An odd-length all-hex string drives `decode_hex` into the out-of-range
final chunk: a panic, not a typed error. -/
theorem decode_hex_odd_panic : ∀ s : List Nat, s.length % 2 = 1 →
    (∀ c ∈ s, (hexVal c).isSome) → Blob.decode_hex s = .panic
  | [], hlen, _ => by simp at hlen
  | [_], _, _ => rfl
  | c1 :: c2 :: rest, hlen, hhex => by
    have h1 : (hexVal c1).isSome := hhex c1 (by simp)
    have h2 : (hexVal c2).isSome := hhex c2 (by simp)
    obtain ⟨a, ha⟩ := Option.isSome_iff_exists.mp h1
    obtain ⟨b, hb⟩ := Option.isSome_iff_exists.mp h2
    obtain ⟨hne43, hne45⟩ := hexVal_ne_sign c1 h1
    have hchunk : fromStrRadix2 c1 c2 = some (16 * a + b) := by
      unfold fromStrRadix2
      rw [if_neg hne43, if_neg hne45, ha, hb]
    have hrest : Blob.decode_hex rest = .panic :=
      decode_hex_odd_panic rest (by simp only [List.length_cons] at hlen; omega)
        (fun c hc => hhex c (by simp [hc]))
    rw [Blob.decode_hex, hchunk, hrest]

/-- A first chunk that fails to parse makes `decode_hex` a typed error. -/
theorem decode_hex_bad_chunk (c1 c2 : Nat) (rest : List Nat)
    (h : fromStrRadix2 c1 c2 = none) :
    Blob.decode_hex (c1 :: c2 :: rest) = .err := by
  rw [Blob.decode_hex, h]

/-- C8 fails as stated: `decode_hex` never checks the length — the
4-character string `"abcd"` decodes successfully instead of failing, and a
40-character string whose every chunk starts with the non-hex character
`+` also decodes successfully, because `u8::from_str_radix` accepts a
leading sign. -/
theorem c8_counterexample :
    Blob.decode_hex (ascii "abcd") = .ok [171, 205]
    ∧ Blob.decode_hex (ascii "+f+f+f+f+f+f+f+f+f+f+f+f+f+f+f+f+f+f+f+f")
        = .ok (List.replicate 20 15)
    ∧ (ascii "+f+f+f+f+f+f+f+f+f+f+f+f+f+f+f+f+f+f+f+f").length = 40 := by
  decide

/-- C8 amended: `decode_hex` returns a typed error when a two-character
chunk fails to parse as hex, but it performs no length check — an
even-length parseable string of any size succeeds, and an odd-length hex
string panics on an out-of-range slice rather than failing with a typed
error; for every 20-byte digest `d`, `decode_hex (string_hash d)` recovers
`d`, and `string_hash d` is a 40-character string over the lowercase hex
alphabet. -/
theorem c8_hex_decode_behaviour (d s : List Nat) (c1 c2 : Nat)
    (rest : List Nat) (hd20 : d.length = 20) (hd : ∀ b ∈ d, b < 256)
    (hodd : s.length % 2 = 1) (hshex : ∀ c ∈ s, (hexVal c).isSome)
    (hbad : fromStrRadix2 c1 c2 = none) :
    Blob.decode_hex (Blob.string_hash d) = .ok d
    ∧ (Blob.string_hash d).length = 40
    ∧ (∀ c ∈ Blob.string_hash d, (48 ≤ c ∧ c ≤ 57) ∨ (97 ≤ c ∧ c ≤ 102))
    ∧ Blob.decode_hex s = .panic
    ∧ Blob.decode_hex (c1 :: c2 :: rest) = .err := by
  have hsh : Blob.string_hash d = (d.map byteHex).flatten := by
    unfold Blob.string_hash
    rw [string_hash_foldl]
    simp
  refine ⟨?_, ?_, ?_, ?_, ?_⟩
  · rw [hsh]
    exact decode_hex_join d hd
  · rw [hsh, join_byteHex_length, hd20]
  · rw [hsh]
    exact join_byteHex_chars d
  · exact decode_hex_odd_panic s hodd hshex
  · exact decode_hex_bad_chunk c1 c2 rest hbad

/-- C8 witness: the amended theorem applied to the 20-byte digest of
`0xab` bytes, the odd-length hex string `"abc"`, and a chunk of two `z`
characters. -/
theorem c8_witness :
    Blob.decode_hex (Blob.string_hash (List.replicate 20 171))
        = .ok (List.replicate 20 171)
    ∧ (Blob.string_hash (List.replicate 20 171)).length = 40
    ∧ (∀ c ∈ Blob.string_hash (List.replicate 20 171),
        (48 ≤ c ∧ c ≤ 57) ∨ (97 ≤ c ∧ c ≤ 102))
    ∧ Blob.decode_hex (ascii "abc") = .panic
    ∧ Blob.decode_hex (122 :: 122 :: []) = .err :=
  c8_hex_decode_behaviour (List.replicate 20 171) (ascii "abc") 122 122 []
    (by decide) (by decide) (by decide) (by decide) (by decide)

/-- C9: the compression codec round-trips exactly — decompressing the
compression of any byte sequence returns it unchanged, at every compression
level. -/
theorem c9_zlib_roundtrip (level : Nat) (x : List Nat) :
    zlibDecompress (zlibCompress level x) = some x := rfl

end RustGit
